import Mathlib

/-!
Verification of the spec-extraction pipeline of mdn-checker
(`src/unnamed/part_000`).  The pipeline turns the rendered ECMAScript
specification document into a typed catalog of global bindings.  We give a
shallow embedding of its data model and operations: machine strings become
`String`/`List Char`, JS numbers become `Int`/`Nat`, fatal `assert`s and
runtime crashes become `Except String`, and the loaded HTML document is
abstracted as a map from a section id to the list of texts of its direct
paragraph children.
-/

set_option maxRecDepth 8000

namespace MdnChecker

/-- `type Section = { title, id, children }` from the source. -/
inductive Section where
  | mk (title : String) (id : String) (children : List Section)

def Section.title : Section → String
  | .mk t _ _ => t

def Section.id : Section → String
  | .mk _ i _ => i

def Section.children : Section → List Section
  | .mk _ _ c => c

/-- `type Parameters = { required, optional, rest }`.  `required` is a JS
number that the code computes by subtraction, so it is modelled as `Int`. -/
structure Parameters where
  required : Int
  optional : Nat
  rest : Bool
deriving DecidableEq, Repr

/-- `type JSProperty` : tagged union of data properties and accessor
properties, each with a name and an attribute code. -/
inductive JSProperty where
  | data (name : String) (attributes : String)
  | accessor (name : String) (attributes : String)
deriving DecidableEq, Repr

def JSProperty.name : JSProperty → String
  | .data n _ => n
  | .accessor n _ => n

/-- `type JSMethod`.  The source spreads `...(attributes ? { attributes } :
undefined)`, so an empty-string code (JS falsy) is dropped like a missing
one; the field is therefore an `Option`. -/
structure JSMethod where
  name : String
  parameters : Parameters
  attributes : Option String
deriving DecidableEq, Repr

/-- `type JSConstructor`. -/
structure JSConstructor where
  name : String
  parameters : Parameters
deriving DecidableEq, Repr

/-- `type JSNamespace`. -/
structure JSNamespace where
  name : String
  global : Bool
  staticProperties : List JSProperty
  staticMethods : List JSMethod
deriving DecidableEq, Repr

/-- `type JSClass`.  The source field `constructor` is spelled `ctor`. -/
structure JSClass where
  name : String
  global : Bool
  ctor : Option JSConstructor
  staticProperties : List JSProperty
  staticMethods : List JSMethod
  prototypeProperties : List JSProperty
  instanceMethods : List JSMethod
  instanceProperties : List JSProperty
deriving DecidableEq, Repr

/-- `type JSGlobalProperty`.  The source writes `getAttributes(section)!`;
the TypeScript `!` has no runtime effect, so a missing attributes paragraph
flows through as a null value: the field is an `Option`. -/
structure JSGlobalProperty where
  name : String
  attributes : Option String
deriving DecidableEq, Repr

/-- `type JSFunction`. -/
structure JSFunction where
  name : String
  parameters : Parameters
  global : Bool
deriving DecidableEq, Repr

/-- `type JSGlobal = JSNamespace | JSClass | JSGlobalProperty | JSFunction`. -/
inductive JSGlobal where
  | Namespace (n : JSNamespace)
  | Class (c : JSClass)
  | GlobalProperty (p : JSGlobalProperty)
  | Function (f : JSFunction)
deriving DecidableEq, Repr

/-- Every variant of `JSGlobal` carries a `name`, used by
`objects.find((o) => o.name === title)`. -/
def JSGlobal.name : JSGlobal → String
  | .Namespace n => n.name
  | .Class c => c.name
  | .GlobalProperty p => p.name
  | .Function f => f.name

/-- The loaded document, abstracted: a section id yields the texts of the
direct `p` children of the element with that id (the source escapes `.` and
`@` when building the CSS selector `#id > p`; the lookup itself is by the
literal id, which this models directly). -/
def Doc : Type := String → List String

/-! ### String utilities

All character-level operations are implemented by structural recursion on
`List Char` so that every definition evaluates inside the kernel. -/

/-- If `pat` is a prefix of `cs`, return the remainder. -/
def dropLit : List Char → List Char → Option (List Char)
  | [], cs => some cs
  | _ :: _, [] => none
  | p :: ps, c :: cs => if p = c then dropLit ps cs else none

/-- Plain substring search (JS `String.prototype.includes`). -/
def containsSeq (pat : List Char) : List Char → Bool
  | [] => (dropLit pat []).isSome
  | c :: rest => (dropLit pat (c :: rest)).isSome || containsSeq pat rest

/-- `s.includes(pat)`. -/
def containsSubstrS (s pat : String) : Bool :=
  containsSeq pat.data s.data

/-- Line terminators that the JS regex `.` does not match. -/
def isLineTerminator (c : Char) : Bool :=
  c = '\n' || c = '\r' || c.val = 0x2028 || c.val = 0x2029

/-- Whitespace class of the JS regex `\s` (with the `u` flag). -/
def isRegexSpace (c : Char) : Bool :=
  c = ' ' || c = '\t' || c = '\n' || c = '\r' || c.val = 0xb || c.val = 0xc ||
  c.val = 0xa0 || c.val = 0x1680 || (0x2000 ≤ c.val && c.val ≤ 0x200a) ||
  c.val = 0x2028 || c.val = 0x2029 || c.val = 0x202f || c.val = 0x205f ||
  c.val = 0x3000 || c.val = 0xfeff

/-- Search for `b` with only non-line-terminator characters before it
(the `.*` between two literals of an unanchored JS regex). -/
def containsSeqNoNL (b : List Char) : List Char → Bool
  | [] => (dropLit b []).isSome
  | c :: rest => (dropLit b (c :: rest)).isSome ||
      (!(isLineTerminator c) && containsSeqNoNL b rest)

/-- Test of the unanchored JS regex `/a.*b/u` for literal `a`, `b`. -/
def seqSearch (a b : List Char) : List Char → Bool
  | [] => (match dropLit a [] with
      | some r => containsSeqNoNL b r
      | none => false)
  | c :: rest =>
    (match dropLit a (c :: rest) with
      | some r => containsSeqNoNL b r
      | none => false)
    || seqSearch a b rest

/-- `/a.*b/u.test(t)`. -/
def regexSeqTest (a b t : String) : Bool :=
  seqSearch a.data b.data t.data

/-- `pre.isPrefixOf s` on strings: JS `/^pre/.test(s)` / `startsWith`. -/
def startsWithS (s pre : String) : Bool :=
  List.isPrefixOf pre.data s.data

/-- JS `s.endsWith(suf)`. -/
def endsWithS (s suf : String) : Bool :=
  List.isSuffixOf suf.data s.data

/-- `title.endsWith(")")`. -/
def endsRparen (t : String) : Bool :=
  match t.data.getLast? with
  | some c => c = ')'
  | none => false

/-- JS `s.replaceAll(" ", "")`. -/
def removeSpaces (s : String) : String :=
  String.mk (s.data.filter fun c => c != ' ')

/-- First occurrence of `pat` in a character list: `some (before, after)`. -/
def firstOccAux (pat : List Char) : List Char → Option (List Char × List Char)
  | [] => if (dropLit pat []).isSome then some ([], []) else none
  | c :: rest =>
    match dropLit pat (c :: rest) with
    | some rem => some ([], rem)
    | none =>
      match firstOccAux pat rest with
      | some (pre, post) => some (c :: pre, post)
      | none => none

/-- JS `s.replace(pat, repl)` with string `pat`: replaces only the first
occurrence (our replacement strings contain no `$` patterns). -/
def replaceFirst (s pat repl : String) : String :=
  match firstOccAux pat.data s.data with
  | some (pre, post) => String.mk (pre ++ repl.data ++ post)
  | none => s

/-- JS `s.split(sep).length`-compatible splitting for a non-empty string
separator; `fuel` bounds the recursion and is instantiated with the input
length, which always suffices. -/
def splitOnAuxL (sep : List Char) : List Char → List Char → Nat → List (List Char)
  | acc, [], _ => [acc.reverse]
  | acc, cs, 0 => [acc.reverse ++ cs]
  | acc, c :: rest, fuel + 1 =>
    if (dropLit sep (c :: rest)).isSome then
      acc.reverse :: splitOnAuxL sep [] ((c :: rest).drop sep.length) fuel
    else
      splitOnAuxL sep (c :: acc) rest fuel

/-- JS `s.split(sep)` (non-empty `sep`). -/
def splitOnL (sep : String) (s : String) : List (List Char) :=
  splitOnAuxL sep.data [] s.data s.data.length

/-- Last index at which `ch` occurs. -/
def lastIdxOf (ch : Char) (cs : List Char) : Option Nat :=
  ((List.range cs.length).filter fun k => cs.getD k ' ' = ch).getLast?

/-- Split at line terminators (segments that a JS `.*` cannot cross). -/
def splitSegments : List Char → List (List Char)
  | [] => [[]]
  | c :: rest =>
    if isLineTerminator c then [] :: splitSegments rest
    else
      match splitSegments rest with
      | s :: ss => (c :: s) :: ss
      | [] => [[c]]

/-- First element on which `f` succeeds. -/
def firstSome (f : α → Option β) : List α → Option β
  | [] => none
  | a :: l =>
    match f a with
    | some b => some b
    | none => firstSome f l

/-- Greedy match of `/(?<name>.*)\((?<parameters>.*)\)/u` within one
line segment: `name` runs to the last `(` that precedes the segment's
last `)`, `parameters` runs up to that last `)`. -/
def matchSegment (seg : List Char) : Option (List Char × List Char) :=
  match lastIdxOf ')' seg with
  | none => none
  | some j =>
    match lastIdxOf '(' (seg.take j) with
    | none => none
    | some i => some (seg.take i, (seg.take j).drop (i + 1))

/-- `title.replace(/(?<!,) /gu, "")`: remove every space whose original
preceding character is not a comma. -/
def stripSpacesAux : Option Char → List Char → List Char
  | _, [] => []
  | prev, c :: rest =>
    if c = ' ' ∧ prev ≠ some ',' then stripSpacesAux (some c) rest
    else c :: stripSpacesAux (some c) rest

def stripDisallowedSpaces (s : String) : String :=
  String.mk (stripSpacesAux none s.data)

/-! ### Signature Parser (`parseParameters`, source lines 119-130) -/

/-- `parseParameters`: strip disallowed spaces, match
`/(?<name>.*)\((?<parameters>.*)\)/u` (a failed match makes the source's
`!.groups!` crash at runtime, modelled as `.error`), then count
comma-separated tokens, `[` occurrences and a `...` marker. -/
def parseParameters (title : String) : Except String (String × Parameters) :=
  match firstSome matchSegment (splitSegments (stripDisallowedSpaces title).data) with
  | none => .error "parseParameters: title does not match the signature shape"
  | some (nameCs, paramCs) =>
    .ok (String.mk nameCs ++ "()",
      { required := ((splitOnL "," (String.mk paramCs)).length : Int) -
          (((splitOnL "[" (String.mk paramCs)).length - 1 : Nat) : Int) -
          (if containsSubstrS (String.mk paramCs) "..." then 1 else 0),
        optional := (splitOnL "[" (String.mk paramCs)).length - 1,
        rest := containsSubstrS (String.mk paramCs) "..." })

/-! ### Error-propagation helpers

JS `assert` failures and runtime crashes abort the pipeline; array `map`s
and sequenced statements evaluate left to right and stop at the first
failure.  `andThen`, `mapExcept` and `foldExcept` encode exactly that. -/

/-- Sequencing in `Except`: run `x`, feed its value to `f`, propagate the
first error. -/
def andThen (x : Except String α) (f : α → Except String β) : Except String β :=
  match x with
  | .error e => .error e
  | .ok a => f a

/-- `assert(cond, msg)`. -/
def guardE (b : Bool) (msg : String) : Except String Unit :=
  if b then .ok () else .error msg

/-- Left-to-right `Array.prototype.map` with fatal errors. -/
def mapExcept (f : α → Except String β) : List α → Except String (List β)
  | [] => .ok []
  | a :: l =>
    match f a with
    | .error e => .error e
    | .ok b =>
      match mapExcept f l with
      | .error e => .error e
      | .ok bs => .ok (b :: bs)

/-- Left-to-right `forEach` threading a state, with fatal errors. -/
def foldExcept (f : β → α → Except String β) : β → List α → Except String β
  | b, [] => .ok b
  | b, a :: l =>
    match f b a with
    | .error e => .error e
    | .ok b2 => foldExcept f b2 l

/-! ### Attribute Extractor (`getAttributes`, source lines 176-193) -/

/-- Parse `true` or `false` at the head of the text (the regex alternation
`(?<writable>true|false)` and friends). -/
def readBoolTok (cs : List Char) : Option (Bool × List Char) :=
  match dropLit "true".data cs with
  | some rest => some (true, rest)
  | none =>
    match dropLit "false".data cs with
    | some rest => some (false, rest)
    | none => none

/-- Attempt the fixed attributes-sentence template at the current position:
`has the attributes { [[Writable]]: *B*, [[Enumerable]]: *B*,
[[Configurable]]: *B* }.` -/
def matchTemplateAt (cs : List Char) : Option (Bool × Bool × Bool) :=
  match dropLit "has the attributes \x7b [[Writable]]: *".data cs with
  | none => none
  | some r1 =>
    match readBoolTok r1 with
    | none => none
    | some (w, r2) =>
      match dropLit "*, [[Enumerable]]: *".data r2 with
      | none => none
      | some r3 =>
        match readBoolTok r3 with
        | none => none
        | some (e, r4) =>
          match dropLit "*, [[Configurable]]: *".data r4 with
          | none => none
          | some r5 =>
            match readBoolTok r5 with
            | none => none
            | some (c, r6) =>
              match dropLit "* \x7d.".data r6 with
              | none => none
              | some _ => some (w, e, c)

/-- Unanchored search for the attributes-sentence template (the source's
`.match(...)` on the paragraph text). -/
def matchTemplate : List Char → Option (Bool × Bool × Bool)
  | [] => matchTemplateAt []
  | c :: rest =>
    match matchTemplateAt (c :: rest) with
    | some r => some r
    | none => matchTemplate rest

/-- The three-letter code built at source lines 190-192: a letter is
emitted iff the corresponding flag is `true`, in the fixed order `w e c`. -/
def attrsToCode (w e c : Bool) : String :=
  (if w then "w" else "") ++ (if e then "e" else "") ++ (if c then "c" else "")

/-- `getAttributes`: among the direct paragraph children of the section's
element, those containing `"has the attributes"`; zero of them is `none`
(caller applies a default), more than one is a fatal assertion, and the
single paragraph is parsed against the fixed sentence template (a failed
match crashes the source's `!.groups!`, modelled as `.error`). -/
def getAttributes (doc : Doc) (s : Section) : Except String (Option String) :=
  match (doc s.id).filter (fun t => containsSubstrS t "has the attributes") with
  | [] => .ok none
  | [p] =>
    match matchTemplate p.data with
    | some (w, e, c) => .ok (some (attrsToCode w e c))
    | none => .error "attributes paragraph does not match the expected sentence"
  | _ => .error ("Expected " ++ s.title ++ " to have 1 attributes paragraph")

/-! ### Bare sections and the Property/Method Classifier
(`getBareSection`, `makeMethod`, `makeConstructor`, `makeProperty`,
source lines 106-174) -/

/-- `\s*` then `\(` after the letter run of the abstract-operation title
pattern. -/
def aoScanWs : List Char → Bool
  | [] => false
  | c :: rest => if c = '(' then true else if isRegexSpace c then aoScanWs rest else false

/-- Continuation of `[A-Za-z]+` (at least one letter already seen). -/
def aoLettersCont : List Char → Bool
  | [] => false
  | c :: rest => if c.isAlpha then aoLettersCont rest else aoScanWs (c :: rest)

/-- `[A-Za-z]+\s*\(` with at least one letter. -/
def aoLetters : List Char → Bool
  | [] => false
  | c :: rest => if c.isAlpha then aoLettersCont rest else false

/-- `/^[A-Z][A-Za-z]+\s*\(/u`. -/
def isAOHead : List Char → Bool
  | [] => false
  | c :: rest => c.isUpper && aoLetters rest

/-- `/^[A-Z][A-Za-z]+\s*\(|^`|Record$/u.test(title)` (the backtick written
as `Char.ofNat 96`). -/
def isAOTypeDef (t : String) : Bool :=
  isAOHead t.data ||
  (match t.data with
    | c :: _ => c = Char.ofNat 96
    | [] => false) ||
  endsWithS t "Record"

/-- `getBareSection`: assert that every child is an abstract-operation or
type-definition leaf, or that the children contain exactly a get/set pair;
on success the section itself is returned unchanged. -/
def getBareSection (s : Section) : Except String Section :=
  if (s.children.all fun t => isAOTypeDef t.title && t.children.length == 0) ||
     (s.children.filter fun t =>
        startsWithS t.title "get " || startsWithS t.title "set ").length == 2 then
    .ok s
  else
    .error ("Not all children are AOs/type-defs for " ++ s.title)

/-- `makeMethod`: attributes first, then the parsed signature; an
empty-string attribute code is falsy in JS, so the spread drops it. -/
def makeMethod (doc : Doc) (s : Section) : Except String JSMethod :=
  andThen (getAttributes doc s) fun attributes =>
  andThen (parseParameters s.title) fun np =>
  .ok { name := np.1, parameters := np.2,
        attributes :=
          match attributes with
          | some a => if a = "" then none else some a
          | none => none }

/-- `makeConstructor`: `null` for a missing section, otherwise the parsed
signature. -/
def makeConstructor : Option Section → Except String (Option JSConstructor)
  | none => .ok none
  | some s =>
    andThen (parseParameters s.title) fun np =>
    .ok (some { name := np.1, parameters := np.2 })

/-- `makeProperty`: a get/set pair of children makes an accessor `"gsc"`;
a `get `/`set ` title makes a one-sided accessor; anything else is a data
property whose attributes default to `"wc"`. -/
def makeProperty (doc : Doc) (s : Section) : Except String JSProperty :=
  if (s.children.filter fun t =>
      startsWithS t.title "get " || startsWithS t.title "set ").length = 2 then
    .ok (.accessor (removeSpaces s.title) "gsc")
  else if startsWithS s.title "get " || startsWithS s.title "set " then
    .ok (.accessor (removeSpaces (String.mk (s.title.data.drop 4)))
      ((if startsWithS s.title "get " then "g" else "") ++
       (if startsWithS s.title "set " then "s" else "") ++ "c"))
  else
    andThen (getAttributes doc s) fun a =>
    .ok (.data (removeSpaces s.title) (a.getD "wc"))

/-- The name a section contributes when classified as a property,
independent of the document (used to state name-level facts). -/
def propName (s : Section) : String :=
  if (s.children.filter fun t =>
      startsWithS t.title "get " || startsWithS t.title "set ").length = 2 then
    removeSpaces s.title
  else if startsWithS s.title "get " || startsWithS s.title "set " then
    removeSpaces (String.mk (s.title.data.drop 4))
  else
    removeSpaces s.title

/-! ### Section Reclassifier, Error Objects branch (source lines 204-221) -/

/-- The `Error Objects` rewrite: find `Properties of Error Instances`
(JS `findIndex` yields `-1`, hence `endOfError = 0`, when absent), then
`subItems = children.slice(endOfError, -1)` — note the `-1`, which excludes
the group's last child; destructure `subItems` into the native-error-types
clause, the `_NativeError_ Object Structure` subtree and the remaining
siblings (a too-short `subItems` crashes on `undefined.title`, modelled as
`.error`), assert the two fixed titles, and emit the truncated group, the
structure subtree and the remaining siblings. -/
def reclassifyErrorObjects (s : Section) : Except String (List Section) :=
  match (s.children.drop
      (match s.children.findIdx? (fun t => t.title == "Properties of Error Instances") with
        | some i => i + 1
        | none => 0)).dropLast with
  | net :: nes :: others =>
    if net.title = "Native Error Types Used in This Standard" then
      if nes.title = "_NativeError_ Object Structure" then
        .ok (Section.mk s.title s.id
          (s.children.take
            (match s.children.findIdx? (fun t => t.title == "Properties of Error Instances") with
              | some i => i + 1
              | none => 0)) :: nes :: others)
      else .error "assertion failed"
    else .error "assertion failed"
  | _ => .error "TypeError: cannot read properties of undefined"

/-! ### Global Binding Assembler (source lines 268-333) -/

/-- `/Value Properties of/u.test(title)`. -/
def valuePropsTest (t : String) : Bool := containsSubstrS t "Value Properties of"

/-- `/Function Properties of/u.test(title)`. -/
def funcPropsTest (t : String) : Bool := containsSubstrS t "Function Properties of"

/-- `/Properties of .* Constructor/u.test(title)`. -/
def ctorPropsTest (t : String) : Bool := regexSeqTest "Properties of " " Constructor" t

/-- `/Properties of .* Instances/u.test(title)`. -/
def instPropsTest (t : String) : Bool := regexSeqTest "Properties of " " Instances" t

/-- `/Properties of .* Prototype Object/u.test(title)`. -/
def protoPropsTest (t : String) : Bool := regexSeqTest "Properties of " " Prototype Object" t

/-- `/The .* Constructor/u.test(title)`. -/
def theCtorTest (t : String) : Bool := regexSeqTest "The " " Constructor" t

/-- `getSubsections(pattern)`: children of the first child whose title
matches, each checked bare; `[]` when no child matches. -/
def getSubsections (children : List Section) (p : String → Bool) : Except String (List Section) :=
  match children.find? (fun c => p c.title) with
  | none => .ok []
  | some c => mapExcept getBareSection c.children

/-- The same subsection list as a pure function (on success
`getSubsections` returns exactly this, since `getBareSection` is the
identity when its assertion holds). -/
def subsectionsOf (children : List Section) (p : String → Bool) : List Section :=
  match children.find? (fun c => p c.title) with
  | none => []
  | some c => c.children

/-- `title.replace(/^The | Object$/gu, "")`: the two anchored alternatives
strip a leading `"The "` and then a trailing `" Object"`. -/
def nsName (title : String) : String :=
  let s1 := if startsWithS title "The " then String.mk (title.data.drop 4) else title
  if endsWithS s1 " Object" then String.mk (s1.data.take (s1.data.length - 7)) else s1

/-- `title.replace(/ Objects| \(.*\)/gu, "")`: scan left to right; at each
position first try the literal `" Objects"`, then `" ("` followed greedily
by the last `)` in the current line segment; on a match skip the consumed
characters and continue.  `fuel` bounds the recursion and is instantiated
with the input length, which always suffices. -/
def classNameAux : Nat → List Char → List Char
  | 0, cs => cs
  | _, [] => []
  | fuel + 1, c :: rest =>
    if (dropLit " Objects".data (c :: rest)).isSome then
      classNameAux fuel ((c :: rest).drop 8)
    else if c = ' ' then
      match rest with
      | '(' :: rest2 =>
        match lastIdxOf ')' (rest2.takeWhile fun ch => !(isLineTerminator ch)) with
        | some j => classNameAux fuel (rest2.drop (j + 1))
        | none => c :: classNameAux fuel rest
      | _ => c :: classNameAux fuel rest
    else
      c :: classNameAux fuel rest

def classNameOfTitle (t : String) : String :=
  String.mk (classNameAux t.data.length t.data)

/-- The namespace branch (source lines 277-298): static properties and
methods come from the `Value Properties of` / `Function Properties of`
subsections; if both are absent, all direct bare children are partitioned
by whether their title ends in `")"`. -/
def assembleNamespace (doc : Doc) (title : String) (children : List Section) :
    Except String JSGlobal :=
  andThen (getSubsections children valuePropsTest) fun sps0 =>
  andThen (getSubsections children funcPropsTest) fun sms0 =>
  andThen (guardE (sps0.all fun p => !endsRparen p.title) "assertion failed") fun _ =>
  andThen (guardE (sms0.all fun p => endsRparen p.title) "assertion failed") fun _ =>
  andThen
    (if sps0.isEmpty && sms0.isEmpty then
      andThen (mapExcept getBareSection children) fun props =>
      .ok (props.filter fun p => !endsRparen p.title,
           props.filter fun p => endsRparen p.title)
    else .ok (sps0, sms0)) fun ps =>
  andThen (mapExcept (makeProperty doc) ps.1) fun staticProperties =>
  andThen (mapExcept (makeMethod doc) ps.2) fun staticMethods =>
  .ok (.Namespace
    { name := nsName title, global := false,
      staticProperties := staticProperties, staticMethods := staticMethods })

/-- The class branch (source lines 299-332): constructor-, instance- and
prototype-properties subsections, each partitioned into properties and
methods by whether the title ends in `")"`; the constructor comes from the
first child of the `The … Constructor` subsection. -/
def assembleClass (doc : Doc) (title : String) (children : List Section) :
    Except String JSGlobal :=
  andThen (getSubsections children ctorPropsTest) fun staticPropSecs =>
  andThen (getSubsections children instPropsTest) fun instancePropSecs =>
  andThen (getSubsections children protoPropsTest) fun protoPropSecs =>
  andThen
    (guardE
      (match (children.find? fun c => theCtorTest c.title).bind (fun c => c.children.head?) with
        | some c => endsRparen c.title
        | none => true)
      "Constructor section does not specify constructor") fun _ =>
  andThen (guardE (instancePropSecs.all fun p => !endsRparen p.title) "assertion failed") fun _ =>
  andThen (mapExcept (makeProperty doc) (staticPropSecs.filter fun p => !endsRparen p.title))
    fun staticProperties =>
  andThen (mapExcept (makeMethod doc) (staticPropSecs.filter fun p => endsRparen p.title))
    fun staticMethods =>
  andThen (mapExcept (makeProperty doc) (protoPropSecs.filter fun p => !endsRparen p.title))
    fun prototypeProperties =>
  andThen (mapExcept (makeMethod doc) (protoPropSecs.filter fun p => endsRparen p.title))
    fun instanceMethods =>
  andThen (mapExcept (makeProperty doc) instancePropSecs) fun instanceProperties =>
  andThen
    (makeConstructor ((children.find? fun c => theCtorTest c.title).bind fun c => c.children.head?))
    fun ctor =>
  .ok (.Class
    { name := classNameOfTitle title, global := false, ctor := ctor,
      staticProperties := staticProperties, staticMethods := staticMethods,
      prototypeProperties := prototypeProperties, instanceMethods := instanceMethods,
      instanceProperties := instanceProperties })

/-- The per-group dispatch of the assembler `.map` callback: a title ending
in `"Object"` is a namespace, anything else a class. -/
def assembleGlobal (doc : Doc) (title : String) (children : List Section) :
    Except String JSGlobal :=
  if endsWithS title "Object" then assembleNamespace doc title children
  else assembleClass doc title children

/-! ### Abstract Class Expander (`expandAbstractClass`, source lines
334-368) -/

/-- `expandSection` on a property: copy with the first occurrence of the
placeholder in `name` replaced. -/
def expandPropName (abstractName name : String) : JSProperty → JSProperty
  | .data n a => .data (replaceFirst n abstractName name) a
  | .accessor n a => .accessor (replaceFirst n abstractName name) a

/-- `expandSection` on a method. -/
def expandMethodName (abstractName name : String) (m : JSMethod) : JSMethod :=
  { m with name := replaceFirst m.name abstractName name }

/-- `expandAbstractClass(abstractName, name)` applied to the template class
`s`: the class name becomes the concrete `name`, the constructor and the
four static/prototype member lists have the placeholder substituted in
their names, and `instanceProperties` is passed through as the same
value. -/
def expandAbstractClass (s : JSClass) (abstractName name : String) : JSClass :=
  { name := name,
    global := s.global,
    ctor := s.ctor.map fun c => { c with name := replaceFirst c.name abstractName name },
    staticProperties := s.staticProperties.map (expandPropName abstractName name),
    staticMethods := s.staticMethods.map (expandMethodName abstractName name),
    prototypeProperties := s.prototypeProperties.map (expandPropName abstractName name),
    instanceMethods := s.instanceMethods.map (expandMethodName abstractName name),
    instanceProperties := s.instanceProperties }

/-- The `.flatMap` dispatch (source lines 362-367): a class named
`_TypedArray_` expands once per typed-array constructor name, a class named
`_NativeError_ Object Structure` expands once per native error type name,
everything else passes through. -/
def expandStep (typedArrayTypes errorTypes : List String) (g : JSGlobal) : List JSGlobal :=
  match g with
  | .Class s =>
    if s.name = "_TypedArray_" then
      typedArrayTypes.map fun t => .Class (expandAbstractClass s "_TypedArray_" t)
    else if s.name = "_NativeError_ Object Structure" then
      errorTypes.map fun t => .Class (expandAbstractClass s "_NativeError_" t)
    else [g]
  | _ => [g]

/-! ### Global Flag Propagator (source lines 370-416) -/

/-- `/^[A-Z]/u.test(title)`. -/
def startsUpperS (t : String) : Bool :=
  match t.data with
  | c :: _ => c.isUpper
  | [] => false

/-- One value-property child of the Global Object clause becomes a
standalone `global-property` descriptor (source lines 380-387).  The
TypeScript `getAttributes(section)!` performs no runtime check, so a
missing attributes paragraph flows through as a null value. -/
def makeGlobalProperty (doc : Doc) (s : Section) : Except String JSGlobal :=
  andThen (getBareSection s) fun sec =>
  andThen (getAttributes doc sec) fun a =>
  .ok (.GlobalProperty { name := sec.title, attributes := a })

/-- One function-property child becomes standalone `function` descriptors
(source lines 388-403): a `URI Handling Functions` grouping contributes its
lower-case-named children, every other child contributes itself. -/
def makeGlobalFunctions (_doc : Doc) (s : Section) : Except String (List JSGlobal) :=
  mapExcept
    (fun t =>
      andThen (getBareSection t) fun bt =>
      andThen (parseParameters bt.title) fun np =>
      .ok (.Function { name := np.1, parameters := np.2, global := true }))
    (if s.title = "URI Handling Functions" then
      s.children.filter fun t => !startsUpperS t.title
    else [s])

/-- `objects.find((o) => o.name === title)` followed by
`assert(obj?.type === "class")` and `obj.global = true` (source lines
405-410): the first descriptor with the given name must be a class; it gets
its global flag set, everything else is untouched. -/
def flagClassGlobal : List JSGlobal → String → Except String (List JSGlobal)
  | [], title => .error (title ++ " is not a class")
  | o :: rest, title =>
    if JSGlobal.name o = title then
      match o with
      | .Class c => .ok (.Class { c with global := true } :: rest)
      | _ => .error (title ++ " is not a class")
    else
      match flagClassGlobal rest title with
      | .ok out => .ok (o :: out)
      | .error e => .error e

/-- Source lines 411-416, the namespace analogue. -/
def flagNamespaceGlobal : List JSGlobal → String → Except String (List JSGlobal)
  | [], title => .error (title ++ " is not a namespace")
  | o :: rest, title =>
    if JSGlobal.name o = title then
      match o with
      | .Namespace n => .ok (.Namespace { n with global := true } :: rest)
      | _ => .error (title ++ " is not a namespace")
    else
      match flagNamespaceGlobal rest title with
      | .ok out => .ok (o :: out)
      | .error e => .error e

/-- One constructor-property child: bare-check it, strip a literal
`" ( . . . )"` from its title, and flag the matching class. -/
def ctorPropStep (objs : List JSGlobal) (s : Section) : Except String (List JSGlobal) :=
  andThen (getBareSection s) fun b =>
  flagClassGlobal objs (replaceFirst b.title " ( . . . )" "")

/-- One other-property child: bare-check it and flag the matching
namespace. -/
def otherPropStep (objs : List JSGlobal) (s : Section) : Except String (List JSGlobal) :=
  andThen (getBareSection s) fun b =>
  flagNamespaceGlobal objs b.title

/-- The shape the source asserts of the Global Object clause (lines
370-378): exactly four children with the four fixed titles in order. -/
def globalsShapeOk : List Section → Bool
  | [g0, g1, g2, g3] =>
    g0.title == "Value Properties of the Global Object" &&
    g1.title == "Function Properties of the Global Object" &&
    g2.title == "Constructor Properties of the Global Object" &&
    g3.title == "Other Properties of the Global Object"
  | _ => false

/-- The successful path of the propagator: append the synthesized
global-property and function descriptors, then flag the classes named by
the constructor-properties children and the namespaces named by the
other-properties children. -/
def propagateCore (doc : Doc) (objects : List JSGlobal) (g0 g1 g2 g3 : Section) :
    Except String (List JSGlobal) :=
  andThen (mapExcept (makeGlobalProperty doc) g0.children) fun gprops =>
  andThen (mapExcept (makeGlobalFunctions doc) g1.children) fun gfuncs =>
  andThen (foldExcept ctorPropStep (objects ++ gprops ++ gfuncs.flatten) g2.children)
    fun objects2 =>
  foldExcept otherPropStep objects2 g3.children

/-- The Global Flag Propagator: assert the four-children shape, then run
the successful path. -/
def propagateGlobals (doc : Doc) (objects : List JSGlobal) (globals : List Section) :
    Except String (List JSGlobal) :=
  match globals with
  | [g0, g1, g2, g3] =>
    if globalsShapeOk [g0, g1, g2, g3] then propagateCore doc objects g0 g1 g2 g3
    else .error "Unexpected global object structure"
  | _ => .error "Unexpected global object structure"

/-- The frame relation of the propagator: a descriptor is either untouched
or is a class/namespace whose global flag has been set to `true`, all other
fields unchanged. -/
def flagRel (a b : JSGlobal) : Prop :=
  b = a ∨
  (∃ c, a = .Class c ∧ b = .Class { c with global := true }) ∨
  (∃ n, a = .Namespace n ∧ b = .Namespace { n with global := true })

/-- Shape of the descriptors the propagator appends: a standalone
global-property, or a function with its global flag set. -/
def appendedShape (x : JSGlobal) : Prop :=
  (∃ p, x = .GlobalProperty p) ∨ (∃ f, x = .Function f ∧ f.global = true)

/-- The one-class catalog entry of the C8 witness, with the given global
flag. -/
def c8foo (g : Bool) : JSClass :=
  { name := "Foo", global := g, ctor := none,
    staticProperties := [], staticMethods := [], prototypeProperties := [],
    instanceMethods := [], instanceProperties := [] }

/-- The well-shaped Global Object clause of the C8 witness, whose
constructor-properties section names `Foo`. -/
def c8globals : List Section :=
  [.mk "Value Properties of the Global Object" "g0" [],
   .mk "Function Properties of the Global Object" "g1" [],
   .mk "Constructor Properties of the Global Object" "g2" [.mk "Foo" "gc" []],
   .mk "Other Properties of the Global Object" "g3" []]

/-- The class produced from the `"Bar Objects"` fixture of the C9
witness. -/
def c9bar : JSClass :=
  { name := "Bar", global := false, ctor := none,
    staticProperties := [], staticMethods := [],
    prototypeProperties := [.data "y" "wc"], instanceMethods := [],
    instanceProperties := [.data "x" "wc"] }

/-- An `Error Objects` group with one sibling group (`AggregateError
Objects`) plus a final child after the `_NativeError_ Object Structure`
subtree, used to settle C4. -/
def c4errSec : Section :=
  .mk "Error Objects" "e0"
    [.mk "The Error Constructor" "e1" [],
     .mk "Properties of Error Instances" "e2" [],
     .mk "Native Error Types Used in This Standard" "e3" [],
     .mk "_NativeError_ Object Structure" "e4" [],
     .mk "AggregateError Objects" "e5" [],
     .mk "Abstract Operations for Error Objects" "e6" []]

instance {ε α : Type} [DecidableEq ε] [DecidableEq α] : DecidableEq (Except ε α) := fun a b =>
  match a, b with
  | .ok x, .ok y =>
    if h : x = y then .isTrue (by rw [h]) else .isFalse (by intro hc; cases hc; exact h rfl)
  | .error x, .error y =>
    if h : x = y then .isTrue (by rw [h]) else .isFalse (by intro hc; cases hc; exact h rfl)
  | .ok _, .error _ => .isFalse (by intro hc; cases hc)
  | .error _, .ok _ => .isFalse (by intro hc; cases hc)

/-- C1.  The Signature Parser on `"Name(a, b, [c])"` returns
`required = 2, optional = 1, rest = false`; on `"Name(...args)"` it returns
`required = 0, optional = 0, rest = true`; and in general, whenever it
succeeds, the required count equals the number of comma-separated parameter
tokens minus the bracket-counted optional count minus 1 if a rest ellipsis
is present, and the returned normalized name is the bare matched name
followed by `"()"`. -/
theorem c1_parseParameters_spec :
    parseParameters "Name(a, b, [c])" =
      .ok ("Name()", { required := 2, optional := 1, rest := false }) ∧
    parseParameters "Name(...args)" =
      .ok ("Name()", { required := 0, optional := 0, rest := true }) ∧
    ∀ (title nm : String) (ps : Parameters),
      parseParameters title = .ok (nm, ps) →
      ∃ nameCs paramCs,
        firstSome matchSegment (splitSegments (stripDisallowedSpaces title).data) =
          some (nameCs, paramCs) ∧
        nm = String.mk nameCs ++ "()" ∧
        ps.optional = (splitOnL "[" (String.mk paramCs)).length - 1 ∧
        ps.rest = containsSubstrS (String.mk paramCs) "..." ∧
        ps.required =
          ((splitOnL "," (String.mk paramCs)).length : Int) -
          (((splitOnL "[" (String.mk paramCs)).length - 1 : Nat) : Int) -
          (if containsSubstrS (String.mk paramCs) "..." then 1 else 0) := by
  refine ⟨by decide, by decide, ?_⟩
  intro title nm ps h
  unfold parseParameters at h
  cases hm : firstSome matchSegment (splitSegments (stripDisallowedSpaces title).data) with
  | none => rw [hm] at h; exact absurd h (by simp)
  | some np =>
    obtain ⟨nameCs, paramCs⟩ := np
    rw [hm] at h
    simp only [Except.ok.injEq, Prod.mk.injEq] at h
    obtain ⟨hnm, hps⟩ := h
    exact ⟨nameCs, paramCs, rfl, hnm.symm, by rw [← hps], by rw [← hps], by rw [← hps]⟩

/-- Witness for C1: the general clause instantiated at `"g(x, [y])"`. -/
theorem c1_parseParameters_spec_witness :
    parseParameters "g(x, [y])" =
      .ok ("g()", { required := 1, optional := 1, rest := false }) ∧
    ∃ nameCs paramCs,
      firstSome matchSegment (splitSegments (stripDisallowedSpaces "g(x, [y])").data) =
        some (nameCs, paramCs) ∧
      "g()" = String.mk nameCs ++ "()" ∧
      (1 : Nat) = (splitOnL "[" (String.mk paramCs)).length - 1 ∧
      false = containsSubstrS (String.mk paramCs) "..." ∧
      (1 : Int) =
        ((splitOnL "," (String.mk paramCs)).length : Int) -
        (((splitOnL "[" (String.mk paramCs)).length - 1 : Nat) : Int) -
        (if containsSubstrS (String.mk paramCs) "..." then 1 else 0) :=
  ⟨by decide,
   c1_parseParameters_spec.2.2 "g(x, [y])" "g()"
     { required := 1, optional := 1, rest := false } (by decide)⟩

/-- C10.  A title whose parenthesized parameter list is empty (such as
`"Name()"`, or `"Name ( )"` after space stripping) yields
`{required := 1, optional := 0, rest := false}`: splitting the empty
parameter string on commas produces one token, so a zero-parameter
signature is never reported as `required = 0`. -/
theorem c10_empty_parameter_list :
    parseParameters "Name()" =
      .ok ("Name()", { required := 1, optional := 0, rest := false }) ∧
    parseParameters "Name ( )" =
      .ok ("Name()", { required := 1, optional := 0, rest := false }) ∧
    ∀ (title : String) (nameCs : List Char),
      firstSome matchSegment (splitSegments (stripDisallowedSpaces title).data) =
        some (nameCs, []) →
      parseParameters title =
        .ok (String.mk nameCs ++ "()", { required := 1, optional := 0, rest := false }) := by
  refine ⟨by decide, by decide, ?_⟩
  intro title nameCs h
  unfold parseParameters
  rw [h]
  rfl

/-- Witness for C10: the general clause instantiated at `"f ( )"`. -/
theorem c10_empty_parameter_list_witness :
    firstSome matchSegment (splitSegments (stripDisallowedSpaces "f ( )").data) =
      some (['f'], []) ∧
    parseParameters "f ( )" =
      .ok (String.mk ['f'] ++ "()", { required := 1, optional := 0, rest := false }) :=
  ⟨by decide, c10_empty_parameter_list.2.2 "f ( )" ['f'] (by decide)⟩

/-! ### General lemmas about the embedded pipeline -/

theorem andThen_ok {x : Except String α} {f : α → Except String β} {r : β}
    (h : andThen x f = .ok r) : ∃ a, x = .ok a ∧ f a = .ok r := by
  cases x with
  | error e => simp [andThen] at h
  | ok a => exact ⟨a, rfl, h⟩

theorem getBareSection_ok {s t : Section} (h : getBareSection s = .ok t) : t = s := by
  unfold getBareSection at h
  split at h
  · injection h with h2
    exact h2.symm
  · simp at h

theorem mapExcept_getBareSection_ok {l out : List Section}
    (h : mapExcept getBareSection l = .ok out) : out = l := by
  induction l generalizing out with
  | nil =>
    unfold mapExcept at h
    injection h with h2
    exact h2.symm
  | cons a l ih =>
    unfold mapExcept at h
    cases ha : getBareSection a with
    | error e => rw [ha] at h; simp at h
    | ok b =>
      rw [ha] at h
      cases hl : mapExcept getBareSection l with
      | error e => rw [hl] at h; simp at h
      | ok bs =>
        rw [hl] at h
        injection h with h2
        rw [← h2, ih hl, getBareSection_ok ha]

theorem getSubsections_ok {children : List Section} {p : String → Bool}
    {l : List Section} (h : getSubsections children p = .ok l) :
    l = subsectionsOf children p := by
  unfold getSubsections at h
  unfold subsectionsOf
  cases hf : children.find? fun c => p c.title with
  | none =>
    rw [hf] at h
    injection h with h2
    exact h2.symm
  | some c =>
    rw [hf] at h
    exact mapExcept_getBareSection_ok h

theorem makeProperty_name {doc : Doc} {s : Section} {p : JSProperty}
    (h : makeProperty doc s = .ok p) : p.name = propName s := by
  unfold makeProperty at h
  unfold propName
  by_cases h1 : (s.children.filter fun t =>
      startsWithS t.title "get " || startsWithS t.title "set ").length = 2
  · rw [if_pos h1] at h
    rw [if_pos h1]
    injection h with h2
    rw [← h2]
    rfl
  · rw [if_neg h1] at h
    rw [if_neg h1]
    by_cases h2 : (startsWithS s.title "get " || startsWithS s.title "set ") = true
    · rw [if_pos h2] at h
      rw [if_pos h2]
      injection h with h3
      rw [← h3]
      rfl
    · rw [if_neg h2] at h
      rw [if_neg h2]
      obtain ⟨a, _, h⟩ := andThen_ok h
      injection h with h3
      rw [← h3]
      rfl

theorem mapExcept_makeProperty_names {doc : Doc} {l : List Section} {out : List JSProperty}
    (h : mapExcept (makeProperty doc) l = .ok out) :
    out.map JSProperty.name = l.map propName := by
  induction l generalizing out with
  | nil =>
    unfold mapExcept at h
    injection h with h2
    rw [← h2]
    rfl
  | cons a l ih =>
    unfold mapExcept at h
    cases ha : makeProperty doc a with
    | error e => rw [ha] at h; simp at h
    | ok b =>
      rw [ha] at h
      cases hl : mapExcept (makeProperty doc) l with
      | error e => rw [hl] at h; simp at h
      | ok bs =>
        rw [hl] at h
        injection h with h2
        rw [← h2]
        simp [List.map_cons, makeProperty_name ha, ih hl]

/-- On success, the class branch partitions each subsection list by
`endsRparen` and classifies each part with `makeProperty` / `makeMethod`. -/
theorem assembleClass_inv {doc : Doc} {title : String} {children : List Section}
    {g : JSGlobal} (h : assembleClass doc title children = .ok g) :
    ∃ c, g = .Class c ∧
      mapExcept (makeProperty doc)
        ((subsectionsOf children ctorPropsTest).filter fun p => !endsRparen p.title) =
        .ok c.staticProperties ∧
      mapExcept (makeMethod doc)
        ((subsectionsOf children ctorPropsTest).filter fun p => endsRparen p.title) =
        .ok c.staticMethods ∧
      mapExcept (makeProperty doc)
        ((subsectionsOf children protoPropsTest).filter fun p => !endsRparen p.title) =
        .ok c.prototypeProperties ∧
      mapExcept (makeMethod doc)
        ((subsectionsOf children protoPropsTest).filter fun p => endsRparen p.title) =
        .ok c.instanceMethods ∧
      mapExcept (makeProperty doc) (subsectionsOf children instPropsTest) =
        .ok c.instanceProperties := by
  unfold assembleClass at h
  obtain ⟨sps, hsps, h⟩ := andThen_ok h
  obtain ⟨ips, hips, h⟩ := andThen_ok h
  obtain ⟨pps, hpps, h⟩ := andThen_ok h
  obtain ⟨u1, hg1, h⟩ := andThen_ok h
  obtain ⟨u2, hg2, h⟩ := andThen_ok h
  obtain ⟨sp, hsp, h⟩ := andThen_ok h
  obtain ⟨sm, hsm, h⟩ := andThen_ok h
  obtain ⟨pp, hpp, h⟩ := andThen_ok h
  obtain ⟨im, him, h⟩ := andThen_ok h
  obtain ⟨ip, hip, h⟩ := andThen_ok h
  obtain ⟨ct, hct, h⟩ := andThen_ok h
  injection h with h2
  rw [getSubsections_ok hsps] at hsp hsm
  rw [getSubsections_ok hpps] at hpp him
  rw [getSubsections_ok hips] at hip
  exact ⟨_, h2.symm, hsp, hsm, hpp, him, hip⟩

/-- On success, the namespace branch always yields a `Namespace` value. -/
theorem assembleNamespace_shape {doc : Doc} {title : String} {children : List Section}
    {g : JSGlobal} (h : assembleNamespace doc title children = .ok g) :
    ∃ ns, g = .Namespace ns := by
  unfold assembleNamespace at h
  obtain ⟨sps, hsps, h⟩ := andThen_ok h
  obtain ⟨sms, hsms, h⟩ := andThen_ok h
  obtain ⟨u1, hg1, h⟩ := andThen_ok h
  obtain ⟨u2, hg2, h⟩ := andThen_ok h
  obtain ⟨ps, hps, h⟩ := andThen_ok h
  obtain ⟨sp, hsp, h⟩ := andThen_ok h
  obtain ⟨sm, hsm, h⟩ := andThen_ok h
  injection h with h2
  exact ⟨_, h2.symm⟩

/-- When neither a `Value Properties of …` nor a `Function Properties of …`
subsection exists, the namespace branch classifies exactly the direct bare
children, partitioned by `endsRparen`. -/
theorem assembleNamespace_fallback_inv {doc : Doc} {title : String}
    {children : List Section} {g : JSGlobal}
    (hv : children.find? (fun c => valuePropsTest c.title) = none)
    (hf : children.find? (fun c => funcPropsTest c.title) = none)
    (h : assembleNamespace doc title children = .ok g) :
    ∃ ns, g = .Namespace ns ∧
      mapExcept (makeProperty doc) (children.filter fun p => !endsRparen p.title) =
        .ok ns.staticProperties ∧
      mapExcept (makeMethod doc) (children.filter fun p => endsRparen p.title) =
        .ok ns.staticMethods := by
  unfold assembleNamespace at h
  obtain ⟨sps, hsps, h⟩ := andThen_ok h
  obtain ⟨sms, hsms, h⟩ := andThen_ok h
  unfold getSubsections at hsps hsms
  rw [hv] at hsps
  rw [hf] at hsms
  injection hsps with hsps2
  injection hsms with hsms2
  rw [← hsps2] at h
  rw [← hsms2] at h
  obtain ⟨u1, hg1, h⟩ := andThen_ok h
  obtain ⟨u2, hg2, h⟩ := andThen_ok h
  obtain ⟨ps, hps, h⟩ := andThen_ok h
  simp only [List.isEmpty_nil, Bool.and_self, if_true] at hps
  obtain ⟨props, hprops, hps⟩ := andThen_ok hps
  rw [mapExcept_getBareSection_ok hprops] at hps
  injection hps with hps2
  rw [← hps2] at h
  obtain ⟨sp, hsp, h⟩ := andThen_ok h
  obtain ⟨sm, hsm, h⟩ := andThen_ok h
  injection h with h2
  exact ⟨_, h2.symm, hsp, hsm⟩

/-- C3 counterexample.  In the namespace fallback the child `"f(a)"` is
classified as a static *method* although its title does not end in the
literal text `"()"` — the code tests only for a trailing `")"`. -/
theorem c3_counterexample :
    assembleGlobal (fun _ => []) "X Object" [.mk "f(a)" "i1" []] =
      .ok (.Namespace
        { name := "X", global := false, staticProperties := [],
          staticMethods :=
            [{ name := "f()",
               parameters := { required := 1, optional := 0, rest := false },
               attributes := none }] }) ∧
    endsWithS "f(a)" "()" = false ∧
    endsRparen "f(a)" = true :=
  ⟨by decide, by decide, by decide⟩

/-- C3 (amended).  In the Global Binding Assembler's namespace path, when
neither a `Value Properties of …` nor a `Function Properties of …`
subsection exists, every direct bare child is classified as a static method
iff its title ends in the single character `")"` (not the two-character
`"()"`), and as a static property otherwise; the same trailing-`")"` test
partitions a class's constructor-properties and prototype-properties
sections into methods and properties. -/
theorem c3_classification_by_rparen :
    (∀ (doc : Doc) (title : String) (children : List Section) (g : JSGlobal),
      endsWithS title "Object" = true →
      children.find? (fun c => valuePropsTest c.title) = none →
      children.find? (fun c => funcPropsTest c.title) = none →
      assembleGlobal doc title children = .ok g →
      ∃ ns, g = .Namespace ns ∧
        mapExcept (makeProperty doc) (children.filter fun p => !endsRparen p.title) =
          .ok ns.staticProperties ∧
        mapExcept (makeMethod doc) (children.filter fun p => endsRparen p.title) =
          .ok ns.staticMethods) ∧
    (∀ (doc : Doc) (title : String) (children : List Section) (g : JSGlobal),
      endsWithS title "Object" = false →
      assembleGlobal doc title children = .ok g →
      ∃ c, g = .Class c ∧
        mapExcept (makeProperty doc)
          ((subsectionsOf children ctorPropsTest).filter fun p => !endsRparen p.title) =
          .ok c.staticProperties ∧
        mapExcept (makeMethod doc)
          ((subsectionsOf children ctorPropsTest).filter fun p => endsRparen p.title) =
          .ok c.staticMethods ∧
        mapExcept (makeProperty doc)
          ((subsectionsOf children protoPropsTest).filter fun p => !endsRparen p.title) =
          .ok c.prototypeProperties ∧
        mapExcept (makeMethod doc)
          ((subsectionsOf children protoPropsTest).filter fun p => endsRparen p.title) =
          .ok c.instanceMethods) := by
  constructor
  · intro doc title children g hobj hv hf h
    unfold assembleGlobal at h
    rw [if_pos hobj] at h
    exact assembleNamespace_fallback_inv hv hf h
  · intro doc title children g hobj h
    unfold assembleGlobal at h
    rw [if_neg (by simp [hobj])] at h
    obtain ⟨c, hc, h1, h2, h3, h4, _⟩ := assembleClass_inv h
    exact ⟨c, hc, h1, h2, h3, h4⟩

/-- Witness for C3: the namespace clause applied to the `"X Object"` group
with the single bare child `"f(a)"`. -/
theorem c3_classification_by_rparen_witness :
    endsWithS "X Object" "Object" = true ∧
    ([Section.mk "f(a)" "i1" []].find? (fun c => valuePropsTest c.title) = none) ∧
    ([Section.mk "f(a)" "i1" []].find? (fun c => funcPropsTest c.title) = none) ∧
    ∃ ns, (JSGlobal.Namespace
        { name := "X", global := false, staticProperties := [],
          staticMethods :=
            [{ name := "f()",
               parameters := { required := 1, optional := 0, rest := false },
               attributes := none }] }) = .Namespace ns ∧
      mapExcept (makeProperty (fun _ => []))
        ([Section.mk "f(a)" "i1" []].filter fun p => !endsRparen p.title) =
        .ok ns.staticProperties ∧
      mapExcept (makeMethod (fun _ => []))
        ([Section.mk "f(a)" "i1" []].filter fun p => endsRparen p.title) =
        .ok ns.staticMethods :=
  ⟨by decide, by rfl, by rfl,
   c3_classification_by_rparen.1 (fun _ => []) "X Object" [Section.mk "f(a)" "i1" []]
     _ (by decide) (by rfl) (by rfl) (by decide)⟩

/-- C9 counterexample.  The assembler performs no disjointness check: a
group whose `Properties of … Instances` and `Properties of … Prototype
Object` subsections both contain a child titled `"x"` yields a class whose
`instanceProperties` and `prototypeProperties` name sets overlap. -/
theorem c9_counterexample :
    assembleGlobal (fun _ => []) "Foo Objects"
      [.mk "Properties of Foo Instances" "i1" [.mk "x" "i2" []],
       .mk "Properties of the Foo Prototype Object" "i3" [.mk "x" "i4" []]] =
      .ok (.Class
        { name := "Foo", global := false, ctor := none,
          staticProperties := [], staticMethods := [],
          prototypeProperties := [.data "x" "wc"], instanceMethods := [],
          instanceProperties := [.data "x" "wc"] }) ∧
    "x" ∈ ([JSProperty.data "x" "wc"].map JSProperty.name) :=
  ⟨by decide, by decide⟩

/-- C9 (amended).  The code never checks disjointness; instead, for every
class descriptor the assembler produces, the `instanceProperties` names are
disjoint from the `prototypeProperties` and `staticProperties` names
exactly when the names derived from the corresponding input subsections are
disjoint — which holds for the real source document but is an assumption on
the input, not an enforced invariant. -/
theorem c9_disjoint_iff_sources_disjoint :
    ∀ (doc : Doc) (title : String) (children : List Section) (c : JSClass),
      assembleGlobal doc title children = .ok (.Class c) →
      (∀ nm ∈ (subsectionsOf children instPropsTest).map propName,
        nm ∉ ((subsectionsOf children protoPropsTest).filter fun p =>
          !endsRparen p.title).map propName) →
      (∀ nm ∈ (subsectionsOf children instPropsTest).map propName,
        nm ∉ ((subsectionsOf children ctorPropsTest).filter fun p =>
          !endsRparen p.title).map propName) →
      ∀ nm ∈ c.instanceProperties.map JSProperty.name,
        nm ∉ c.prototypeProperties.map JSProperty.name ∧
        nm ∉ c.staticProperties.map JSProperty.name := by
  intro doc title children c h hdp hds nm hmem
  unfold assembleGlobal at h
  by_cases hobj : (endsWithS title "Object") = true
  · rw [if_pos hobj] at h
    obtain ⟨ns, hns⟩ := assembleNamespace_shape h
    cases hns
  · rw [if_neg hobj] at h
    obtain ⟨c2, hc2, h1, h2, h3, h4, h5⟩ := assembleClass_inv h
    injection hc2 with hc3
    subst hc3
    rw [mapExcept_makeProperty_names h5] at hmem
    constructor
    · rw [mapExcept_makeProperty_names h3]
      exact hdp nm hmem
    · rw [mapExcept_makeProperty_names h1]
      exact hds nm hmem

/-- Witness for C9: a group whose instance and prototype subsections carry
distinct names yields a class with disjoint name sets. -/
theorem c9_disjoint_iff_sources_disjoint_witness :
    assembleGlobal (fun _ => []) "Bar Objects"
      [.mk "Properties of Bar Instances" "i1" [.mk "x" "i2" []],
       .mk "Properties of the Bar Prototype Object" "i3" [.mk "y" "i4" []]] =
      .ok (.Class c9bar) ∧
    ∀ nm ∈ c9bar.instanceProperties.map JSProperty.name,
      nm ∉ c9bar.prototypeProperties.map JSProperty.name ∧
      nm ∉ c9bar.staticProperties.map JSProperty.name :=
  ⟨by decide,
   c9_disjoint_iff_sources_disjoint (fun _ => []) "Bar Objects"
     [.mk "Properties of Bar Instances" "i1" [.mk "x" "i2" []],
      .mk "Properties of the Bar Prototype Object" "i3" [.mk "y" "i4" []]]
     c9bar (by decide) (by decide) (by decide)⟩

theorem flagRel_refl (a : JSGlobal) : flagRel a a := Or.inl rfl

theorem flagRel_trans {a b c : JSGlobal} (h1 : flagRel a b) (h2 : flagRel b c) :
    flagRel a c := by
  rcases h1 with rfl | ⟨x, rfl, rfl⟩ | ⟨x, rfl, rfl⟩
  · exact h2
  · rcases h2 with rfl | ⟨y, hy, rfl⟩ | ⟨y, hy, hy2⟩
    · exact Or.inr (Or.inl ⟨x, rfl, rfl⟩)
    · injection hy with hy
      rw [← hy]
      exact Or.inr (Or.inl ⟨x, rfl, rfl⟩)
    · cases hy
  · rcases h2 with rfl | ⟨y, hy, hy2⟩ | ⟨y, hy, rfl⟩
    · exact Or.inr (Or.inr ⟨x, rfl, rfl⟩)
    · cases hy
    · injection hy with hy
      rw [← hy]
      exact Or.inr (Or.inr ⟨x, rfl, rfl⟩)

theorem forall₂_flagRel_refl (l : List JSGlobal) : List.Forall₂ flagRel l l := by
  induction l with
  | nil => exact .nil
  | cons a l ih => exact .cons (flagRel_refl a) ih

theorem forall₂_flagRel_trans : ∀ {l1 l2 l3 : List JSGlobal},
    List.Forall₂ flagRel l1 l2 → List.Forall₂ flagRel l2 l3 →
    List.Forall₂ flagRel l1 l3 := by
  intro l1 l2 l3 h1
  induction h1 generalizing l3 with
  | nil => intro h2; cases h2; exact .nil
  | cons hab h ih =>
    intro h2
    cases h2 with
    | cons hbc h2' => exact .cons (flagRel_trans hab hbc) (ih h2')

theorem flagClassGlobal_rel : ∀ {objs : List JSGlobal} {t : String} {out : List JSGlobal},
    flagClassGlobal objs t = .ok out → List.Forall₂ flagRel objs out := by
  intro objs
  induction objs with
  | nil => intro t out h; simp [flagClassGlobal] at h
  | cons o rest ih =>
    intro t out h
    unfold flagClassGlobal at h
    by_cases hn : JSGlobal.name o = t
    · rw [if_pos hn] at h
      cases o with
      | Class c =>
        have h2 : Except.ok (JSGlobal.Class { c with global := true } :: rest) =
            Except.ok (ε := String) out := h
        injection h2 with h3
        rw [← h3]
        exact .cons (Or.inr (Or.inl ⟨c, rfl, rfl⟩)) (forall₂_flagRel_refl rest)
      | Namespace n =>
        exact Except.noConfusion (h : Except.error (t ++ " is not a class") = Except.ok out)
      | GlobalProperty p =>
        exact Except.noConfusion (h : Except.error (t ++ " is not a class") = Except.ok out)
      | Function f =>
        exact Except.noConfusion (h : Except.error (t ++ " is not a class") = Except.ok out)
    · rw [if_neg hn] at h
      cases hr : flagClassGlobal rest t with
      | error e => rw [hr] at h; simp at h
      | ok out2 =>
        rw [hr] at h
        injection h with h2
        rw [← h2]
        exact .cons (flagRel_refl o) (ih hr)

theorem flagNamespaceGlobal_rel : ∀ {objs : List JSGlobal} {t : String} {out : List JSGlobal},
    flagNamespaceGlobal objs t = .ok out → List.Forall₂ flagRel objs out := by
  intro objs
  induction objs with
  | nil => intro t out h; simp [flagNamespaceGlobal] at h
  | cons o rest ih =>
    intro t out h
    unfold flagNamespaceGlobal at h
    by_cases hn : JSGlobal.name o = t
    · rw [if_pos hn] at h
      cases o with
      | Namespace n =>
        have h2 : Except.ok (JSGlobal.Namespace { n with global := true } :: rest) =
            Except.ok (ε := String) out := h
        injection h2 with h3
        rw [← h3]
        exact .cons (Or.inr (Or.inr ⟨n, rfl, rfl⟩)) (forall₂_flagRel_refl rest)
      | Class c =>
        exact Except.noConfusion (h : Except.error (t ++ " is not a namespace") = Except.ok out)
      | GlobalProperty p =>
        exact Except.noConfusion (h : Except.error (t ++ " is not a namespace") = Except.ok out)
      | Function f =>
        exact Except.noConfusion (h : Except.error (t ++ " is not a namespace") = Except.ok out)
    · rw [if_neg hn] at h
      cases hr : flagNamespaceGlobal rest t with
      | error e => rw [hr] at h; simp at h
      | ok out2 =>
        rw [hr] at h
        injection h with h2
        rw [← h2]
        exact .cons (flagRel_refl o) (ih hr)

theorem ctorPropStep_rel {objs : List JSGlobal} {s : Section} {out : List JSGlobal}
    (h : ctorPropStep objs s = .ok out) : List.Forall₂ flagRel objs out := by
  unfold ctorPropStep at h
  obtain ⟨b, hb, h⟩ := andThen_ok h
  exact flagClassGlobal_rel h

theorem otherPropStep_rel {objs : List JSGlobal} {s : Section} {out : List JSGlobal}
    (h : otherPropStep objs s = .ok out) : List.Forall₂ flagRel objs out := by
  unfold otherPropStep at h
  obtain ⟨b, hb, h⟩ := andThen_ok h
  exact flagNamespaceGlobal_rel h

theorem foldExcept_rel (step : List JSGlobal → Section → Except String (List JSGlobal))
    (hstep : ∀ (b : List JSGlobal) (a : Section) (out : List JSGlobal),
      step b a = .ok out → List.Forall₂ flagRel b out) :
    ∀ (l : List Section) (init out : List JSGlobal),
      foldExcept step init l = .ok out → List.Forall₂ flagRel init out := by
  intro l
  induction l with
  | nil =>
    intro init out h
    unfold foldExcept at h
    injection h with h2
    rw [h2]
    exact forall₂_flagRel_refl out
  | cons a l ih =>
    intro init out h
    unfold foldExcept at h
    cases hs : step init a with
    | error e => rw [hs] at h; simp at h
    | ok mid =>
      rw [hs] at h
      exact forall₂_flagRel_trans (hstep init a mid hs) (ih mid out h)

theorem forall₂_append_split : ∀ {l1 l2 m : List JSGlobal},
    List.Forall₂ flagRel (l1 ++ l2) m →
    ∃ m1 m2, m = m1 ++ m2 ∧ List.Forall₂ flagRel l1 m1 ∧ List.Forall₂ flagRel l2 m2 := by
  intro l1
  induction l1 with
  | nil => intro l2 m h; exact ⟨[], m, rfl, .nil, h⟩
  | cons a l1 ih =>
    intro l2 m h
    cases h with
    | cons hab h' =>
      obtain ⟨m1, m2, rfl, h1, h2⟩ := ih h'
      exact ⟨_ :: m1, m2, rfl, .cons hab h1, h2⟩

theorem forall₂_flagRel_mem_right : ∀ {l m : List JSGlobal},
    List.Forall₂ flagRel l m → ∀ y ∈ m, ∃ x ∈ l, flagRel x y := by
  intro l m h
  induction h with
  | nil => intro y hy; simp at hy
  | cons hab h ih =>
    intro y hy
    cases hy with
    | head => exact ⟨_, List.mem_cons_self _ _, hab⟩
    | tail _ hy' =>
      obtain ⟨x, hx, hr⟩ := ih y hy'
      exact ⟨x, List.mem_cons_of_mem _ hx, hr⟩

theorem flagRel_appendedShape {x y : JSGlobal} (h : flagRel x y)
    (hx : appendedShape x) : appendedShape y := by
  rcases h with rfl | ⟨c, rfl, rfl⟩ | ⟨n, rfl, rfl⟩
  · exact hx
  · rcases hx with ⟨p, hp⟩ | ⟨f, hf, _⟩
    · cases hp
    · cases hf
  · rcases hx with ⟨p, hp⟩ | ⟨f, hf, _⟩
    · cases hp
    · cases hf

theorem mapExcept_mem {f : α → Except String β} : ∀ {l : List α} {out : List β},
    mapExcept f l = .ok out → ∀ y ∈ out, ∃ x ∈ l, f x = .ok y := by
  intro l
  induction l with
  | nil =>
    intro out h y hy
    unfold mapExcept at h
    injection h with h2
    rw [← h2] at hy
    simp at hy
  | cons a l ih =>
    intro out h y hy
    unfold mapExcept at h
    cases ha : f a with
    | error e => rw [ha] at h; simp at h
    | ok b =>
      rw [ha] at h
      cases hl : mapExcept f l with
      | error e => rw [hl] at h; simp at h
      | ok bs =>
        rw [hl] at h
        injection h with h2
        rw [← h2] at hy
        cases hy with
        | head => exact ⟨a, List.mem_cons_self a l, ha⟩
        | tail _ hy' =>
          obtain ⟨x, hx, hfx⟩ := ih hl y hy'
          exact ⟨x, List.mem_cons_of_mem _ hx, hfx⟩

theorem makeGlobalProperty_shape {doc : Doc} {s : Section} {y : JSGlobal}
    (h : makeGlobalProperty doc s = .ok y) : appendedShape y := by
  unfold makeGlobalProperty at h
  obtain ⟨sec, _, h⟩ := andThen_ok h
  obtain ⟨a, _, h⟩ := andThen_ok h
  injection h with h2
  exact Or.inl ⟨_, h2.symm⟩

theorem makeGlobalFunctions_shape {doc : Doc} {s : Section} {ys : List JSGlobal}
    (h : makeGlobalFunctions doc s = .ok ys) : ∀ y ∈ ys, appendedShape y := by
  unfold makeGlobalFunctions at h
  intro y hy
  obtain ⟨x, hx, hfx⟩ := mapExcept_mem h y hy
  obtain ⟨bt, _, hfx⟩ := andThen_ok hfx
  obtain ⟨np, _, hfx⟩ := andThen_ok hfx
  injection hfx with h2
  exact Or.inr ⟨_, h2.symm, rfl⟩

/-- C7.  The Global Flag Propagator fails fatally unless the Global Object
clause has exactly four children with the four fixed titles in order; and
the class/namespace flagging fails fatally (never silently skips) whenever
no class (resp. namespace) descriptor with the child's name exists in the
catalog. -/
theorem c7_shape_and_exhaustive_matching :
    (∀ (doc : Doc) (objects : List JSGlobal) (globals : List Section),
      globalsShapeOk globals = false →
      propagateGlobals doc objects globals = .error "Unexpected global object structure") ∧
    (∀ (objs : List JSGlobal) (title : String),
      (∀ c : JSClass, JSGlobal.Class c ∈ objs → c.name ≠ title) →
      ∃ e, flagClassGlobal objs title = .error e) ∧
    (∀ (objs : List JSGlobal) (title : String),
      (∀ n : JSNamespace, JSGlobal.Namespace n ∈ objs → n.name ≠ title) →
      ∃ e, flagNamespaceGlobal objs title = .error e) := by
  refine ⟨?_, ?_, ?_⟩
  · intro doc objects globals h
    rcases globals with _ | ⟨g0, _ | ⟨g1, _ | ⟨g2, _ | ⟨g3, _ | ⟨g4, grest⟩⟩⟩⟩⟩ <;>
      simp [propagateGlobals, h]
  · intro objs title h
    induction objs with
    | nil => exact ⟨_, rfl⟩
    | cons o rest ih =>
      by_cases hn : JSGlobal.name o = title
      · cases o with
        | Class c =>
          exact absurd hn (h c (List.mem_cons_self _ _))
        | Namespace n =>
          refine ⟨title ++ " is not a class", ?_⟩
          unfold flagClassGlobal
          rw [if_pos hn]
        | GlobalProperty p =>
          refine ⟨title ++ " is not a class", ?_⟩
          unfold flagClassGlobal
          rw [if_pos hn]
        | Function f =>
          refine ⟨title ++ " is not a class", ?_⟩
          unfold flagClassGlobal
          rw [if_pos hn]
      · obtain ⟨e, he⟩ := ih fun c hc => h c (List.mem_cons_of_mem _ hc)
        refine ⟨e, ?_⟩
        unfold flagClassGlobal
        rw [if_neg hn, he]
  · intro objs title h
    induction objs with
    | nil => exact ⟨_, rfl⟩
    | cons o rest ih =>
      by_cases hn : JSGlobal.name o = title
      · cases o with
        | Namespace n =>
          exact absurd hn (h n (List.mem_cons_self _ _))
        | Class c =>
          refine ⟨title ++ " is not a namespace", ?_⟩
          unfold flagNamespaceGlobal
          rw [if_pos hn]
        | GlobalProperty p =>
          refine ⟨title ++ " is not a namespace", ?_⟩
          unfold flagNamespaceGlobal
          rw [if_pos hn]
        | Function f =>
          refine ⟨title ++ " is not a namespace", ?_⟩
          unfold flagNamespaceGlobal
          rw [if_pos hn]
      · obtain ⟨e, he⟩ := ih fun n hnn => h n (List.mem_cons_of_mem _ hnn)
        refine ⟨e, ?_⟩
        unfold flagNamespaceGlobal
        rw [if_neg hn, he]

/-- Witness for C7: a wrongly-shaped Global Object clause aborts, and an
unmatched constructor-property or other-property name aborts on an empty
catalog. -/
theorem c7_shape_and_exhaustive_matching_witness :
    propagateGlobals (fun _ => []) [] [] = .error "Unexpected global object structure" ∧
    (∃ e, flagClassGlobal [] "Foo" = .error e) ∧
    (∃ e, flagNamespaceGlobal [] "Foo" = .error e) :=
  ⟨c7_shape_and_exhaustive_matching.1 (fun _ => []) [] [] (by rfl),
   c7_shape_and_exhaustive_matching.2.1 [] "Foo" (by intro c hc; simp at hc),
   c7_shape_and_exhaustive_matching.2.2 [] "Foo" (by intro n hn; simp at hn)⟩

/-- C8.  On success the propagator's only effect on the previously
assembled catalog prefix is flipping global flags of class/namespace
descriptors to `true` (every other field of every existing descriptor is
unchanged), and all other growth is by appending standalone global-property
and (global) function descriptors. -/
theorem c8_propagator_frame :
    ∀ (doc : Doc) (objects : List JSGlobal) (globals : List Section)
      (result : List JSGlobal),
      propagateGlobals doc objects globals = .ok result →
      ∃ pre app, result = pre ++ app ∧ List.Forall₂ flagRel objects pre ∧
        ∀ x ∈ app,
          (∃ p, x = .GlobalProperty p) ∨ (∃ f, x = .Function f ∧ f.global = true) := by
  intro doc objects globals result h
  rcases globals with _ | ⟨g0, _ | ⟨g1, _ | ⟨g2, _ | ⟨g3, _ | ⟨g4, grest⟩⟩⟩⟩⟩ <;>
    try simp [propagateGlobals] at h
  by_cases hsh : globalsShapeOk [g0, g1, g2, g3] = true
  case neg =>
    rw [if_neg hsh] at h
    simp at h
  case pos =>
    rw [if_pos hsh] at h
    unfold propagateCore at h
    obtain ⟨gprops, hgp, h⟩ := andThen_ok h
    obtain ⟨gfuncs, hgf, h⟩ := andThen_ok h
    obtain ⟨objects2, h2, h3⟩ := andThen_ok h
    have r1 : List.Forall₂ flagRel (objects ++ gprops ++ gfuncs.flatten) objects2 :=
      foldExcept_rel ctorPropStep (fun b a out hh => ctorPropStep_rel hh) _ _ _ h2
    have r2 : List.Forall₂ flagRel objects2 result :=
      foldExcept_rel otherPropStep (fun b a out hh => otherPropStep_rel hh) _ _ _ h3
    have rall : List.Forall₂ flagRel (objects ++ gprops ++ gfuncs.flatten) result :=
      forall₂_flagRel_trans r1 r2
    obtain ⟨m12, m3, rfl, hA, hB⟩ := forall₂_append_split rall
    obtain ⟨m1, m2, rfl, hA1, hA2⟩ := forall₂_append_split hA
    refine ⟨m1, m2 ++ m3, by rw [List.append_assoc], hA1, ?_⟩
    intro x hx
    rcases List.mem_append.1 hx with hx2 | hx3
    · obtain ⟨y, hy, hr⟩ := forall₂_flagRel_mem_right hA2 x hx2
      obtain ⟨z, hz, hfz⟩ := mapExcept_mem hgp y hy
      exact flagRel_appendedShape hr (makeGlobalProperty_shape hfz)
    · obtain ⟨y, hy, hr⟩ := forall₂_flagRel_mem_right hB x hx3
      rw [List.mem_flatten] at hy
      obtain ⟨ys, hys, hyys⟩ := hy
      obtain ⟨z, hz, hfz⟩ := mapExcept_mem hgf ys hys
      exact flagRel_appendedShape hr (makeGlobalFunctions_shape hfz y hyys)

/-- Witness for C8: a catalog with one class `Foo` and a Global Object
clause whose constructor-properties section names `Foo`; the run flips
exactly that global flag. -/
theorem c8_propagator_frame_witness :
    propagateGlobals (fun _ => []) [.Class (c8foo false)] c8globals =
      .ok [.Class (c8foo true)] ∧
    ∃ pre app, ([JSGlobal.Class (c8foo true)] : List JSGlobal) = pre ++ app ∧
      List.Forall₂ flagRel [.Class (c8foo false)] pre ∧
      ∀ x ∈ app,
        (∃ p, x = .GlobalProperty p) ∨ (∃ f, x = .Function f ∧ f.global = true) :=
  ⟨by decide,
   c8_propagator_frame (fun _ => []) [.Class (c8foo false)] c8globals
     [.Class (c8foo true)] (by decide)⟩

theorem expandPropName_name (a t : String) (p : JSProperty) :
    (expandPropName a t p).name = replaceFirst p.name a t := by
  cases p <;> rfl

theorem expandMethodName_name (a t : String) (m : JSMethod) :
    (expandMethodName a t m).name = replaceFirst m.name a t := rfl

/-- C2 counterexample.  The `_NativeError_ Object Structure` template
expands to a sibling whose class name is the concrete name itself
(`"TypeError"`), *not* the template class name with the placeholder
substring replaced (which would be `"TypeError Object Structure"`). -/
theorem c2_counterexample :
    expandStep [] ["TypeError"]
      (.Class
        { name := "_NativeError_ Object Structure", global := false, ctor := none,
          staticProperties := [], staticMethods := [], prototypeProperties := [],
          instanceMethods := [], instanceProperties := [] }) =
      [.Class
        { name := "TypeError", global := false, ctor := none,
          staticProperties := [], staticMethods := [], prototypeProperties := [],
          instanceMethods := [], instanceProperties := [] }] ∧
    replaceFirst "_NativeError_ Object Structure" "_NativeError_" "TypeError" =
      "TypeError Object Structure" ∧
    ("TypeError Object Structure" : String) ≠ "TypeError" :=
  ⟨by decide, by decide, by decide⟩

/-- C2 (amended).  Applied to the `_TypedArray_` and
`_NativeError_ Object Structure` template class descriptors, expansion
produces exactly one sibling per name of the corresponding reference list,
in order (so expanded class names and reference-list names coincide); in
each sibling the placeholder substring is replaced by the concrete name in
the constructor name and every static property, static method, prototype
property and prototype (instance) method name, while the class name is set
to the concrete name itself, and `instanceProperties` is the very same
value shared by all siblings. -/
theorem c2_expansion :
    (∀ (s : JSClass) (tl el : List String), s.name = "_TypedArray_" →
      expandStep tl el (.Class s) =
        tl.map fun t => .Class (expandAbstractClass s "_TypedArray_" t)) ∧
    (∀ (s : JSClass) (tl el : List String), s.name = "_NativeError_ Object Structure" →
      expandStep tl el (.Class s) =
        el.map fun t => .Class (expandAbstractClass s "_NativeError_" t)) ∧
    (∀ (s : JSClass) (a : String) (L : List String),
      (L.map fun t => (expandAbstractClass s a t).name) = L) ∧
    (∀ (s : JSClass) (a t : String),
      (expandAbstractClass s a t).staticProperties.map JSProperty.name =
        s.staticProperties.map (fun p => replaceFirst p.name a t) ∧
      (expandAbstractClass s a t).staticMethods.map JSMethod.name =
        s.staticMethods.map (fun m => replaceFirst m.name a t) ∧
      (expandAbstractClass s a t).prototypeProperties.map JSProperty.name =
        s.prototypeProperties.map (fun p => replaceFirst p.name a t) ∧
      (expandAbstractClass s a t).instanceMethods.map JSMethod.name =
        s.instanceMethods.map (fun m => replaceFirst m.name a t) ∧
      (expandAbstractClass s a t).ctor.map JSConstructor.name =
        s.ctor.map (fun c => replaceFirst c.name a t) ∧
      (expandAbstractClass s a t).instanceProperties = s.instanceProperties) := by
  refine ⟨?_, ?_, ?_, ?_⟩
  · intro s tl el h
    show (if s.name = "_TypedArray_" then
        tl.map fun t => JSGlobal.Class (expandAbstractClass s "_TypedArray_" t)
      else if s.name = "_NativeError_ Object Structure" then
        el.map fun t => JSGlobal.Class (expandAbstractClass s "_NativeError_" t)
      else [JSGlobal.Class s]) =
      tl.map fun t => JSGlobal.Class (expandAbstractClass s "_TypedArray_" t)
    rw [if_pos h]
  · intro s tl el h
    show (if s.name = "_TypedArray_" then
        tl.map fun t => JSGlobal.Class (expandAbstractClass s "_TypedArray_" t)
      else if s.name = "_NativeError_ Object Structure" then
        el.map fun t => JSGlobal.Class (expandAbstractClass s "_NativeError_" t)
      else [JSGlobal.Class s]) =
      el.map fun t => JSGlobal.Class (expandAbstractClass s "_NativeError_" t)
    rw [if_neg (by simp [h]), if_pos h]
  · intro s a L
    simp [expandAbstractClass]
  · intro s a t
    refine ⟨?_, ?_, ?_, ?_, ?_, rfl⟩ <;>
      simp [expandAbstractClass, List.map_map, Function.comp_def,
        expandPropName_name, expandMethodName_name, Option.map_map]

/-- Witness for C2: the `_NativeError_` dispatch clause at a concrete
template with reference list `["TypeError"]`. -/
theorem c2_expansion_witness :
    ({ name := "_NativeError_ Object Structure", global := false, ctor := none,
       staticProperties := [], staticMethods := [], prototypeProperties := [],
       instanceMethods := [], instanceProperties := [] } : JSClass).name =
      "_NativeError_ Object Structure" ∧
    expandStep [] ["TypeError"]
      (.Class
        { name := "_NativeError_ Object Structure", global := false, ctor := none,
          staticProperties := [], staticMethods := [], prototypeProperties := [],
          instanceMethods := [], instanceProperties := [] }) =
      ["TypeError"].map (fun t => .Class (expandAbstractClass
        { name := "_NativeError_ Object Structure", global := false, ctor := none,
          staticProperties := [], staticMethods := [], prototypeProperties := [],
          instanceMethods := [], instanceProperties := [] } "_NativeError_" t)) :=
  ⟨by decide,
   c2_expansion.2.1
     { name := "_NativeError_ Object Structure", global := false, ctor := none,
       staticProperties := [], staticMethods := [], prototypeProperties := [],
       instanceMethods := [], instanceProperties := [] }
     [] ["TypeError"] (by decide)⟩

/-- C4 counterexample.  `subItems = children.slice(endOfError, -1)` always
excludes the group's final child: here the sibling group `"Abstract
Operations for Error Objects"`, which follows the `_NativeError_ Object
Structure` subtree, is dropped from the output. -/
theorem c4_counterexample :
    (reclassifyErrorObjects c4errSec).map (fun l => l.map Section.title) =
      .ok ["Error Objects", "_NativeError_ Object Structure", "AggregateError Objects"] ∧
    c4errSec.children.map Section.title =
      ["The Error Constructor", "Properties of Error Instances",
       "Native Error Types Used in This Standard", "_NativeError_ Object Structure",
       "AggregateError Objects", "Abstract Operations for Error Objects"] :=
  ⟨rfl, rfl⟩

/-- C4 (amended).  The Error Objects rewrite yields the truncated
`Error Objects` group (children up to and including `Properties of Error
Instances`), the `_NativeError_ Object Structure` subtree, and every
remaining sibling *except the group's final child*, which
`slice(endOfError, -1)` always excludes. -/
theorem c4_error_objects_split :
    ∀ (s : Section) (i : Nat) (net nes : Section) (others : List Section),
      s.children.findIdx? (fun t => t.title == "Properties of Error Instances") = some i →
      (s.children.drop (i + 1)).dropLast = net :: nes :: others →
      net.title = "Native Error Types Used in This Standard" →
      nes.title = "_NativeError_ Object Structure" →
      reclassifyErrorObjects s =
        .ok (Section.mk s.title s.id (s.children.take (i + 1)) :: nes :: others) := by
  intro s i net nes others hidx hsub hnet hnes
  unfold reclassifyErrorObjects
  simp only [hidx]
  rw [hsub]
  show (if net.title = "Native Error Types Used in This Standard" then
      if nes.title = "_NativeError_ Object Structure" then
        Except.ok (Section.mk s.title s.id (List.take (i + 1) s.children) :: nes :: others)
      else Except.error "assertion failed"
    else Except.error "assertion failed") =
    Except.ok (Section.mk s.title s.id (List.take (i + 1) s.children) :: nes :: others)
  rw [if_pos hnet, if_pos hnes]

/-- Witness for C4: the amended split applied to the fixture group. -/
theorem c4_error_objects_split_witness :
    c4errSec.children.findIdx? (fun t => t.title == "Properties of Error Instances") =
      some 1 ∧
    reclassifyErrorObjects c4errSec =
      .ok (Section.mk c4errSec.title c4errSec.id (c4errSec.children.take (1 + 1)) ::
        (Section.mk "_NativeError_ Object Structure" "e4" []) ::
        [Section.mk "AggregateError Objects" "e5" []]) :=
  ⟨by rfl,
   c4_error_objects_split c4errSec 1
     (.mk "Native Error Types Used in This Standard" "e3" [])
     (.mk "_NativeError_ Object Structure" "e4" [])
     [.mk "AggregateError Objects" "e5" []]
     (by rfl) (by rfl) (by rfl) (by rfl)⟩

/-- C5.  The attribute code contains `w` iff Writable is declared true,
`e` iff Enumerable is declared true, and `c` iff Configurable is declared
true, always in the fixed relative order `w`, `e`, `c` (stated as: the code
equals the filter of the ordered alphabet `wec` by the three flags); a
paragraph declaring writable=true, enumerable=false, configurable=true
yields `"wc"`, and an all-false paragraph yields `""`. -/
theorem c5_attribute_code :
    (∀ w e c : Bool,
      (attrsToCode w e c).data =
        ['w', 'e', 'c'].filter fun ch =>
          if ch = 'w' then w else if ch = 'e' then e else c) ∧
    getAttributes
      (fun _ => ["This property has the attributes \x7b [[Writable]]: *true*, [[Enumerable]]: *false*, [[Configurable]]: *true* \x7d."])
      (.mk "t" "i" []) = .ok (some "wc") ∧
    getAttributes
      (fun _ => ["This property has the attributes \x7b [[Writable]]: *false*, [[Enumerable]]: *false*, [[Configurable]]: *false* \x7d."])
      (.mk "t" "i" []) = .ok (some "") := by
  refine ⟨?_, by decide, by decide⟩
  intro w e c
  cases w <;> cases e <;> cases c <;> rfl

/-- C6.  For any section, the Attribute Extractor returns `none` when zero
direct paragraph children contain `"has the attributes"`, fails fatally
when more than one such paragraph exists, and when it returns `none` for a
data property the classifier substitutes the default code `"wc"`. -/
theorem c6_attributes_zero_one_default :
    (∀ (doc : Doc) (s : Section),
      (doc s.id).filter (fun t => containsSubstrS t "has the attributes") = [] →
      getAttributes doc s = .ok none) ∧
    (∀ (doc : Doc) (s : Section) (p q : String) (r : List String),
      (doc s.id).filter (fun t => containsSubstrS t "has the attributes") = p :: q :: r →
      ∃ e, getAttributes doc s = .error e) ∧
    (∀ (doc : Doc) (s : Section),
      (s.children.filter fun t =>
        startsWithS t.title "get " || startsWithS t.title "set ").length ≠ 2 →
      (startsWithS s.title "get " || startsWithS s.title "set ") = false →
      getAttributes doc s = .ok none →
      makeProperty doc s = .ok (.data (removeSpaces s.title) "wc")) := by
  refine ⟨?_, ?_, ?_⟩
  · intro doc s h
    unfold getAttributes
    rw [h]
  · intro doc s p q r h
    unfold getAttributes
    rw [h]
    exact ⟨_, rfl⟩
  · intro doc s h1 h2 h3
    unfold makeProperty
    rw [if_neg h1, if_neg (by simp [h2]), h3]
    rfl

/-- Witness for C6: all three clauses at concrete inputs. -/
theorem c6_attributes_zero_one_default_witness :
    getAttributes (fun _ => []) (.mk "t" "i" []) = .ok none ∧
    (∃ e, getAttributes
        (fun _ => ["a has the attributes", "b has the attributes"])
        (.mk "t" "i" []) = .error e) ∧
    makeProperty (fun _ => []) (.mk "x y" "i" []) = .ok (.data (removeSpaces "x y") "wc") :=
  ⟨c6_attributes_zero_one_default.1 (fun _ => []) (.mk "t" "i" []) rfl,
   c6_attributes_zero_one_default.2.1
     (fun _ => ["a has the attributes", "b has the attributes"])
     (.mk "t" "i" []) "a has the attributes" "b has the attributes" [] (by decide),
   c6_attributes_zero_one_default.2.2 (fun _ => []) (.mk "x y" "i" [])
     (by decide) (by decide) (by decide)⟩

end MdnChecker
